import Mathlib

/-!
# gocambio: the USD-BRL quotation server and its client

A shallow embedding of `server/server.go` and `client/client.go`.

* Go's `[]byte` and `string` are both byte sequences (`Bytes`); the conversions
  `string(b)` and `[]byte(s)` are the identity on them.
* `time.Duration` and clock readings are natural numbers of nanoseconds.
* Every call that leaves the process (the HTTP round trip, `io.ReadAll` on the
  response body, `json.Unmarshal`, the SQLite driver, `os.WriteFile`) is an
  oracle: a field of an environment record, so that a statement quantified over
  the environment holds for every behaviour of the outside world.
* A Go `error` is its message text; `fmt.Errorf("...: %w", err)` is the format
  text followed by `err.Error()`.
* The global `db` handle and the file system are threaded through explicitly.
  A run is followed on its own: what it does to the store is told apart from
  what requests served at the same time do.
* Log lines are not modelled.
-/

namespace GoCambio

/-! ## Byte strings and errors -/

/-- A Go `[]byte` or `string`. -/
abbrev Bytes := List UInt8

/-- A Go string literal: the UTF-8 encoding of its source text. -/
def lit (s : String) : Bytes := s.data.flatMap String.utf8EncodeChar

/-- A Go `error` value, carried by the text of its `Error()` method. -/
structure GoError where
  msg : Bytes
deriving DecidableEq, Repr

/-- `fmt.Errorf(text + "%w", err)`. -/
def wrapf (text : String) (err : GoError) : GoError := ⟨lit text ++ err.msg⟩

/-- `time.Millisecond`, in nanoseconds. -/
def millisecond : Nat := 1000000

/-! ## Package `context` -/

/-- The cancel functions a run can hold: the two made by `cotacaoHandler`,
the one made by the client's `main`, and those held outside (such as the one
`net/http` keeps for an inbound request). -/
inductive CancelFunc where
  | apiCancel
  | dbCancel
  | clientCancel
  | outer (n : Nat)
deriving DecidableEq, Repr

/-- A `context.Context`, as the tree built by the package's constructors.
`withDeadline parent d c` is `context.WithDeadline(parent, d)` whose cancel
function is `c`. -/
inductive Context where
  | background
  | withCancel (parent : Context) (cancel : CancelFunc)
  | withDeadline (parent : Context) (deadline : Nat) (cancel : CancelFunc)
deriving DecidableEq, Repr

/-- `ctx.Deadline()`: the earliest deadline on the path to the root. -/
def Context.deadline : Context → Option Nat
  | .background => none
  | .withCancel p _ => p.deadline
  | .withDeadline p d _ =>
    match p.deadline with
    | none => some d
    | some pd => some (min pd d)

/-- Whether `ctx.Done()` is closed at clock reading `now`, when `called` tells
which cancel functions have been called: a context is done once its own cancel
function was called, its deadline has passed, or its parent is done. -/
def Context.done (now : Nat) (called : CancelFunc → Bool) : Context → Bool
  | .background => false
  | .withCancel p c => called c || p.done now called
  | .withDeadline p d c => called c || decide (d ≤ now) || p.done now called

/-- `context.WithTimeout(parent, timeout)` called at clock reading `now`. -/
def Context.withTimeout (parent : Context) (now timeout : Nat) (cancel : CancelFunc) :
    Context :=
  .withDeadline parent (now + timeout) cancel

/-- The non-nil values of `ctx.Err()`. -/
inductive CtxErr where
  | canceled
  | deadlineExceeded
deriving DecidableEq, Repr

/-- The `error` behind a `CtxErr`. -/
def CtxErr.toError : CtxErr → GoError
  | .canceled => ⟨lit "context canceled"⟩
  | .deadlineExceeded => ⟨lit "context deadline exceeded"⟩

/-! ## Package `net/http`, client side -/

/-- What `(*http.Client).Do` gives: an error, together with the value of
`ctx.Err()` read right after it; or a response with its status code and what
`io.ReadAll(resp.Body)` returns (the bytes read and the read error, if any). -/
inductive DoResult where
  | failed (err : GoError) (ctxErr : Option CtxErr)
  | response (status : Nat) (body : Bytes) (readErr : Option GoError)
deriving DecidableEq, Repr

/-- `http.StatusOK`. -/
def StatusOK : Nat := 200

/-- `http.StatusInternalServerError`. -/
def StatusInternalServerError : Nat := 500

/-- What a handler has written to its `http.ResponseWriter`. -/
structure Response where
  status : Nat
  header : List (String × String)
  body : Bytes
deriving DecidableEq, Repr

/-- `http.Error(w, msg, code)`: a plain-text reply, the message followed by a
newline. -/
def httpError (msg : Bytes) (code : Nat) : Response :=
  { status := code
    header := [("Content-Type", "text/plain; charset=utf-8"),
               ("X-Content-Type-Options", "nosniff")]
    body := msg ++ lit "\n" }

end GoCambio

/-! ## `server/server.go` -/

namespace GoCambio.Server

/-- Constant `apiTimeout`. -/
def apiTimeout : Nat := 200 * millisecond

/-- Constant `dbTimeout`. -/
def dbTimeout : Nat := 10 * millisecond

/-- Type `ExchangeRateData`. -/
structure ExchangeRateData where
  Code : Bytes
  Codein : Bytes
  Name : Bytes
  High : Bytes
  Low : Bytes
  VarBid : Bytes
  PctChange : Bytes
  Bid : Bytes
  Ask : Bytes
  Timestamp : Bytes
  CreateDate : Bytes
deriving DecidableEq, Repr

/-- Type `ExchangeRateApiResponse`. -/
structure ExchangeRateApiResponse where
  USDBRL : ExchangeRateData
deriving DecidableEq, Repr

/-! ### The `quotations` table -/

/-- The columns created by `initDB`. -/
inductive Column where
  | id
  | bid
  | full_response
  | api_timestamp
  | server_timestamp
deriving DecidableEq, Repr

/-- A row of `quotations`: `id INTEGER PRIMARY KEY AUTOINCREMENT`,
`bid TEXT NOT NULL`, `full_response TEXT`, `api_timestamp TEXT`,
`server_timestamp DATETIME DEFAULT CURRENT_TIMESTAMP`. -/
structure Row where
  id : Nat
  bid : Bytes
  full_response : Option Bytes
  api_timestamp : Option Bytes
  server_timestamp : Bytes
deriving DecidableEq, Repr

/-- The state behind the global `db`: the rows of `quotations`, oldest first,
and the largest id handed out so far (SQLite's `sqlite_sequence` entry). -/
structure DB where
  quotations : List Row
  seq : Nat
deriving DecidableEq, Repr

/-- An `INSERT INTO quotations (columns...) VALUES (?, ..., ?)` statement. -/
structure InsertStmt where
  columns : List Column
  placeholders : Nat
deriving DecidableEq, Repr

/-- The statement text prepared by `saveQuotationToDB`:
`INSERT INTO quotations (bid, full_response, api_timestamp) VALUES (?, ?, ?)`. -/
def insertSQL : InsertStmt :=
  { columns := [.bid, .full_response, .api_timestamp], placeholders := 3 }

/-- The id `AUTOINCREMENT` gives the next row: one more than the largest id
the table holds or has ever handed out. -/
def DB.nextId (d : DB) : Nat :=
  (d.quotations.map Row.id).foldl max d.seq + 1

/-- Running an insert statement to completion with positional arguments:
each listed column takes the argument at its position, `id` and
`server_timestamp` take their defaults (`stamp` is the store's
`CURRENT_TIMESTAMP`), and the new row goes after the existing ones. The
statement is rejected, with the store unchanged, when the argument count is
wrong or the `NOT NULL` column gets no value; statements that list `id` are
outside this model and rejected too. -/
def DB.insert (d : DB) (stmt : InsertStmt) (args : List Bytes) (stamp : Bytes) :
    Except GoError DB :=
  if stmt.columns.length ≠ stmt.placeholders ∨ args.length ≠ stmt.placeholders then
    .error ⟨lit "sql: wrong number of arguments"⟩
  else if Column.id ∈ stmt.columns then
    .error ⟨lit "insert with an explicit id"⟩
  else
    let cell : Column → Option Bytes := fun c => (stmt.columns.zip args).lookup c
    match cell .bid with
    | none => .error ⟨lit "NOT NULL constraint failed: quotations.bid"⟩
    | some bid =>
      .ok { quotations := d.quotations ++
              [{ id := d.nextId
                 bid := bid
                 full_response := cell .full_response
                 api_timestamp := cell .api_timestamp
                 server_timestamp := (cell .server_timestamp).getD stamp }]
            seq := d.nextId }

/-- What the driver reports for `stmt.ExecContext`: an error with the value of
`ctx.Err()` read right after it (the statement then had no effect), or
completion at the store's clock text `stamp`. -/
inductive ExecResult where
  | failed (err : GoError) (ctxErr : Option CtxErr)
  | completed (stamp : Bytes)
deriving DecidableEq, Repr

/-- The outside world as one request to `/cotacao` sees it, upstream side. -/
structure Upstream where
  /-- Error of `http.NewRequestWithContext(ctx, "GET", externalAPIURL, nil)`. -/
  newRequest : Context → Option GoError
  /-- Result of `client.Do(req)` and of reading the body. -/
  roundTrip : Context → DoResult
  /-- Function `json.Unmarshal` at type `ExchangeRateApiResponse`. -/
  unmarshal : Bytes → Except GoError ExchangeRateApiResponse

/-- The outside world as one request to `/cotacao` sees it, store side. -/
structure Store where
  /-- Error of `db.PrepareContext`, with `ctx.Err()` read right after it. -/
  prepare : Context → Option (GoError × Option CtxErr)
  /-- Result of `stmt.ExecContext`. -/
  exec : Context → ExecResult

/-- Method `stmt.ExecContext(ctx, args...)` on the prepared `stmt`: the
driver either fails, leaving the store as it was, or runs the statement. -/
def execContext (st : Store) (d : DB) (ctx : Context) (stmt : InsertStmt)
    (args : List Bytes) : Except (GoError × Option CtxErr) DB :=
  match st.exec ctx with
  | .failed err ctxErr => .error (err, ctxErr)
  | .completed stamp =>
    match d.insert stmt args stamp with
    | .error err => .error (err, none)
    | .ok d' => .ok d'

/-- The clock readings taken by the two `context.WithTimeout` calls of
`cotacaoHandler`: the first at `entry`, the second `fetchElapsed` later. -/
structure Clock where
  entry : Nat
  fetchElapsed : Nat

/-- Function `fetchExchangeRate`. -/
def fetchExchangeRate (up : Upstream) (ctx : Context) :
    Except GoError (ExchangeRateApiResponse × Bytes) :=
  match up.newRequest ctx with
  | some err => .error (wrapf "falha ao criar requisição para API externa: " err)
  | none =>
    match up.roundTrip ctx with
    | .failed err ctxErr =>
      if ctxErr = some .deadlineExceeded then
        .error (wrapf "timeout ao buscar cotação da API externa: " CtxErr.deadlineExceeded.toError)
      else
        .error (wrapf "falha ao executar requisição para API externa: " err)
    | .response status body readErr =>
      if status ≠ StatusOK then
        .error ⟨lit "API externa retornou status não OK: " ++ lit (toString status)
                  ++ lit " - " ++ body⟩
      else
        match readErr with
        | some err => .error (wrapf "falha ao ler corpo da resposta da API externa: " err)
        | none =>
          match up.unmarshal body with
          | .error err => .error (wrapf "falha ao decodificar JSON da API externa: " err)
          | .ok apiResponse => .ok (apiResponse, body)

/-- Function `saveQuotationToDB`: the error returned (if any) and the store
afterwards. -/
def saveQuotationToDB (st : Store) (d : DB) (ctx : Context)
    (quotationData : ExchangeRateData) (fullResponseJson : Bytes) : Option GoError × DB :=
  match st.prepare ctx with
  | some (err, ctxErr) =>
    if ctxErr = some .deadlineExceeded then
      (some (wrapf "timeout ao preparar statement SQL: " CtxErr.deadlineExceeded.toError), d)
    else
      (some (wrapf "erro ao preparar statement SQL: " err), d)
  | none =>
    match execContext st d ctx insertSQL
            [quotationData.Bid, fullResponseJson, quotationData.Timestamp] with
    | .error (err, ctxErr) =>
      if ctxErr = some .deadlineExceeded then
        (some (wrapf "timeout ao salvar cotação no banco de dados: "
                 CtxErr.deadlineExceeded.toError), d)
      else
        (some (wrapf "erro ao executar statement SQL para salvar cotação: " err), d)
    | .ok d' => (none, d')

/-- One invocation of `saveQuotationToDB`, with its arguments. -/
structure SaveCall where
  ctx : Context
  quotationData : ExchangeRateData
  fullResponseJson : Bytes
deriving DecidableEq, Repr

/-- What one run of `cotacaoHandler` does: the reply written to `w`, the store
afterwards, the context handed to `fetchExchangeRate`, the invocations of
`saveQuotationToDB` in order, and the error of that call, which the handler
only logs. -/
structure HandlerRun where
  response : Response
  db : DB
  fetchCtx : Context
  saveCalls : List SaveCall
  saveErr : Option GoError
deriving DecidableEq, Repr

/-- Function `cotacaoHandler`; `reqCtx` is `r.Context()`. -/
def cotacaoHandler (up : Upstream) (st : Store) (clk : Clock) (reqCtx : Context) (d : DB) :
    HandlerRun :=
  let apiCtx := Context.withTimeout reqCtx clk.entry apiTimeout .apiCancel
  match fetchExchangeRate up apiCtx with
  | .error err =>
    { response := httpError (lit "Erro ao buscar cotação externa: " ++ err.msg)
                    StatusInternalServerError
      db := d
      fetchCtx := apiCtx
      saveCalls := []
      saveErr := none }
  | .ok (exchangeRateApiResponse, originalJsonBody) =>
    let dbCtx := Context.withTimeout .background (clk.entry + clk.fetchElapsed) dbTimeout
                   .dbCancel
    let saved := saveQuotationToDB st d dbCtx exchangeRateApiResponse.USDBRL originalJsonBody
    { response := { status := StatusOK
                    header := [("Content-Type", "application/json")]
                    body := originalJsonBody }
      db := saved.2
      fetchCtx := apiCtx
      saveCalls := [⟨dbCtx, exchangeRateApiResponse.USDBRL, originalJsonBody⟩]
      saveErr := saved.1 }

end GoCambio.Server

/-! ## `client/client.go` -/

namespace GoCambio.Client

/-- Variable `requestTimeout`. -/
def requestTimeout : Nat := 300 * millisecond

/-- Variable `outputFileName`. -/
def outputFileName : String := "./cotacao.txt"

/-- The anonymous struct type of the field `USDBRL` of `ServerResponse`. -/
structure ServerResponseUSDBRL where
  Bid : Bytes
deriving DecidableEq, Repr

/-- Type `ServerResponse`. -/
structure ServerResponse where
  USDBRL : ServerResponseUSDBRL
deriving DecidableEq, Repr

/-- Function `init`: the value given to `serverURL`, from the value of the
environment variable `SERVER_URL` (empty when unset). -/
def init (SERVER_URL : Bytes) : Bytes :=
  if SERVER_URL = [] then lit "http://localhost:8080/cotacao" else SERVER_URL

/-- The files of the machine: path to content, `none` for a path with no
file. -/
abbrev FS := String → Option Bytes

/-- The file system `fs` with the file at `name` replaced. -/
def FS.set (fs : FS) (name : String) (content : Option Bytes) : FS :=
  fun p => if p = name then content else fs p

/-- The outside world as one run of the client sees it. -/
structure World where
  /-- Error of `http.NewRequestWithContext(ctx, "GET", serverURL, nil)`. -/
  newRequest : Bytes → Context → Option GoError
  /-- Result of `client.Do(req)` and of reading the body. -/
  roundTrip : Bytes → Context → DoResult
  /-- Function `json.Unmarshal` at type `ServerResponse`. -/
  unmarshal : Bytes → Except GoError ServerResponse
  /-- Failure of `os.WriteFile(name, data, 0644)`, if it fails: its error and
  what is left at `name`. -/
  writeFile : String → Bytes → FS → Option (GoError × Option Bytes)

/-- Function `fetchQuotationFromServer`. -/
def fetchQuotationFromServer (w : World) (serverURL : Bytes) (ctx : Context) :
    Except GoError Bytes :=
  match w.newRequest serverURL ctx with
  | some err => .error (wrapf "falha ao criar requisição: " err)
  | none =>
    match w.roundTrip serverURL ctx with
    | .failed err ctxErr =>
      if ctxErr = some .deadlineExceeded then
        .error (wrapf "timeout ao solicitar cotação: " CtxErr.deadlineExceeded.toError)
      else
        .error (wrapf "falha ao executar requisição: " err)
    | .response status body readErr =>
      if status ≠ StatusOK then
        .error ⟨lit "servidor retornou status não OK: " ++ lit (toString status)
                  ++ lit " - " ++ body⟩
      else
        match readErr with
        | some err => .error (wrapf "falha ao ler corpo da resposta: " err)
        | none =>
          match w.unmarshal body with
          | .error err => .error (wrapf "falha ao decodificar JSON da resposta: " err)
          | .ok serverResp =>
            if serverResp.USDBRL.Bid = [] then
              .error ⟨lit "campo 'bid' não encontrado ou vazio na resposta"⟩
            else
              .ok serverResp.USDBRL.Bid

/-- Function `saveQuotationToFile`: the error returned (if any) and the file
system afterwards. -/
def saveQuotationToFile (w : World) (fs : FS) (bidValue : Bytes) : Option GoError × FS :=
  let fileContent := lit "Dólar: " ++ bidValue
  match w.writeFile outputFileName fileContent fs with
  | some (err, left) =>
    (some ⟨lit "falha ao salvar cotação no arquivo '" ++ lit outputFileName ++ lit "': "
             ++ err.msg⟩,
     fs.set outputFileName left)
  | none => (none, fs.set outputFileName (some fileContent))

/-- What one run of the client does: the exit code of the process, the text
given to `log.Fatalf` when it ends that way, the file system afterwards, and
the arguments of the invocations of `saveQuotationToFile` in order. -/
structure Run where
  exitCode : Nat
  fatal : Option Bytes
  fs : FS
  saveCalls : List Bytes

/-- Function `main` (after `init`), started at clock reading `start`. -/
def main (w : World) (SERVER_URL : Bytes) (start : Nat) (fs : FS) : Run :=
  let serverURL := init SERVER_URL
  let clientCtx := Context.withTimeout .background start requestTimeout .clientCancel
  match fetchQuotationFromServer w serverURL clientCtx with
  | .error err =>
    { exitCode := 1
      fatal := some (lit "[CLIENT] Erro crítico ao obter cotação: " ++ err.msg)
      fs := fs
      saveCalls := [] }
  | .ok bidValue =>
    match saveQuotationToFile w fs bidValue with
    | (some err, fs') =>
      { exitCode := 1
        fatal := some (lit "[CLIENT] Erro crítico ao salvar cotação: " ++ err.msg)
        fs := fs'
        saveCalls := [bidValue] }
    | (none, fs') =>
      { exitCode := 0
        fatal := none
        fs := fs'
        saveCalls := [bidValue] }

end GoCambio.Client

/-! ## A decoder for concrete runs

The statements below hold for every `unmarshal` oracle. To run the program on
a concrete body, this section gives a decoder for a fragment of JSON: objects
whose members are strings or objects, without white space and without escape
sequences. Members are found by their exact key, first occurrence; a body
outside the fragment is rejected. -/

namespace GoCambio.Json

/-- A JSON value of the fragment. -/
inductive Value where
  | str (s : Bytes)
  | obj (members : List (Bytes × Value))

/-- Reads a string body up to its closing quote: the text and what follows. -/
def scanString : Bytes → Option (Bytes × Bytes)
  | [] => none
  | c :: cs =>
    if c = 34 then some ([], cs)
    else if c = 92 ∨ c < 32 then none
    else (scanString cs).map fun (s, rest) => (c :: s, rest)

mutual
/-- Reads one value: the value and what follows. -/
def scanValue : Nat → Bytes → Option (Value × Bytes)
  | 0, _ => none
  | _, [] => none
  | fuel + 1, c :: cs =>
    if c = 34 then (scanString cs).map fun (s, rest) => (.str s, rest)
    else if c = 123 then
      match cs with
      | [] => none
      | c' :: cs' =>
        if c' = 125 then some (.obj [], cs')
        else (scanMembers fuel cs).map fun (ms, rest) => (.obj ms, rest)
    else none
/-- Reads the members of an object up to its closing brace. -/
def scanMembers : Nat → Bytes → Option (List (Bytes × Value) × Bytes)
  | 0, _ => none
  | _, [] => none
  | fuel + 1, c :: cs =>
    if c ≠ 34 then none
    else
      match scanString cs with
      | none => none
      | some (_, []) => none
      | some (key, c' :: rest) =>
        if c' ≠ 58 then none
        else
          match scanValue fuel rest with
          | none => none
          | some (_, []) => none
          | some (v, c'' :: rest') =>
            if c'' = 125 then some ([(key, v)], rest')
            else if c'' = 44 then
              (scanMembers fuel rest').map fun (ms, rest'') => ((key, v) :: ms, rest'')
            else none
end

/-- The members of the object a whole body consists of. -/
def document (body : Bytes) : Except GoError (List (Bytes × Value)) :=
  match scanValue (body.length + 1) body with
  | some (.obj ms, []) => .ok ms
  | _ => .error ⟨lit "invalid character"⟩

/-- The object member `key` of `ms`: its members, none when it is absent. -/
def objectField (ms : List (Bytes × Value)) (key : String) :
    Except GoError (List (Bytes × Value)) :=
  match ms.lookup (lit key) with
  | none => .ok []
  | some (.obj fs) => .ok fs
  | some (.str _) => .error ⟨lit "json: cannot unmarshal string into Go struct field"⟩

/-- The string member `key` of `ms`: empty when it is absent. -/
def stringField (ms : List (Bytes × Value)) (key : String) : Except GoError Bytes :=
  match ms.lookup (lit key) with
  | none => .ok []
  | some (.str s) => .ok s
  | some (.obj _) => .error ⟨lit "json: cannot unmarshal object into Go struct field"⟩

/-- Decoder at type `ServerResponse`. -/
def unmarshalServerResponse (body : Bytes) : Except GoError Client.ServerResponse := do
  let ms ← document body
  let fs ← objectField ms "USDBRL"
  let bid ← stringField fs "bid"
  pure ⟨⟨bid⟩⟩

/-- Decoder at type `ExchangeRateApiResponse`. -/
def unmarshalExchangeRateApiResponse (body : Bytes) :
    Except GoError Server.ExchangeRateApiResponse := do
  let ms ← document body
  let fs ← objectField ms "USDBRL"
  let code ← stringField fs "code"
  let codein ← stringField fs "codein"
  let name ← stringField fs "name"
  let high ← stringField fs "high"
  let low ← stringField fs "low"
  let varBid ← stringField fs "varBid"
  let pctChange ← stringField fs "pctChange"
  let bid ← stringField fs "bid"
  let ask ← stringField fs "ask"
  let timestamp ← stringField fs "timestamp"
  let createDate ← stringField fs "create_date"
  pure ⟨⟨code, codein, name, high, low, varBid, pctChange, bid, ask, timestamp, createDate⟩⟩

end GoCambio.Json

/-! ## Concrete runs -/

namespace GoCambio.Sample

open Server Client

/-- The body `{"USDBRL":{"bid":"5.25"}}`. -/
def body525 : Bytes := lit "\x7b\"USDBRL\":\x7b\"bid\":\"5.25\"\x7d\x7d"

/-- The body `{"USDBRL":{"bid":"5.25","timestamp":"1700000000"}}`. -/
def bodyStamped : Bytes :=
  lit "\x7b\"USDBRL\":\x7b\"bid\":\"5.25\",\"timestamp\":\"1700000000\"\x7d\x7d"

/-- The body `{}`. -/
def bodyEmpty : Bytes := lit "\x7b\x7d"

/-- An upstream that answers with `status` and `body`. -/
def upstreamAnswering (status : Nat) (body : Bytes) : Upstream :=
  { newRequest := fun _ => none
    roundTrip := fun _ => .response status body none
    unmarshal := Json.unmarshalExchangeRateApiResponse }

/-- An upstream that does not answer before the deadline. -/
def upstreamTimingOut : Upstream :=
  { newRequest := fun _ => none
    roundTrip := fun _ => .failed ⟨lit "Get: context deadline exceeded"⟩ (some .deadlineExceeded)
    unmarshal := Json.unmarshalExchangeRateApiResponse }

/-- A store that takes every write. -/
def storeWorking : Store :=
  { prepare := fun _ => none
    exec := fun _ => .completed (lit "2024-01-01 00:00:00") }

/-- A store that runs out of time while preparing the statement. -/
def storeTimingOut : Store :=
  { prepare := fun _ => some (⟨lit "context deadline exceeded"⟩, some .deadlineExceeded)
    exec := fun _ => .completed (lit "2024-01-01 00:00:00") }

/-- A store whose write fails. -/
def storeFailing : Store :=
  { prepare := fun _ => none
    exec := fun _ => .failed ⟨lit "database is locked"⟩ none }

/-- A store that serves the calls made under the context `c` and refuses every
other call. -/
def storeAccepting (c : Context) : Store :=
  { prepare := fun ctx => if ctx = c then none else some (⟨lit "refused"⟩, none)
    exec := fun ctx =>
      if ctx = c then .completed (lit "2024-01-01 00:00:00")
      else .failed ⟨lit "refused"⟩ none }

/-- An upstream that answers, with status 200 and `body`, the requests made
under the context `c` and no other request. -/
def upstreamAccepting (c : Context) (body : Bytes) : Upstream :=
  { newRequest := fun _ => none
    roundTrip := fun ctx =>
      if ctx = c then .response 200 body none else .failed ⟨lit "refused"⟩ none
    unmarshal := Json.unmarshalExchangeRateApiResponse }

/-- What the body `bodyStamped` decodes to. -/
def respStamped : ExchangeRateApiResponse :=
  ⟨⟨[], [], [], [], [], [], [], lit "5.25", [], lit "1700000000", []⟩⟩

/-- A handler entered at 1s whose fetch takes 150ms. -/
def clock : Clock := { entry := 1000 * millisecond, fetchElapsed := 150 * millisecond }

/-- The context `net/http` gives an inbound request: the background context
under the cancel function of the connection and that of the request, with no
deadline. -/
def inbound : Context := .withCancel (.withCancel .background (.outer 0)) (.outer 1)

/-- A table with one earlier quotation. -/
def db1 : DB :=
  { quotations := [{ id := 1, bid := lit "5.10", full_response := some (lit "\x7b\x7d"),
                     api_timestamp := some (lit "1690000000"),
                     server_timestamp := lit "2023-07-22 04:26:40" }]
    seq := 1 }

/-- A server that answers the client with `status` and `body`; writing the
file works. -/
def worldAnswering (status : Nat) (body : Bytes) : World :=
  { newRequest := fun _ _ => none
    roundTrip := fun _ _ => .response status body none
    unmarshal := Json.unmarshalServerResponse
    writeFile := fun _ _ _ => none }

/-- A file system holding an older quotation in the output file. -/
def fsOld : FS := FS.set (fun _ => none) outputFileName (some (lit "Dólar: 4.99\nold"))

end GoCambio.Sample

/-! ## Properties of the server -/

namespace GoCambio.Server

/-- The statement of `saveQuotationToDB` with its three arguments is accepted
and appends one row built from them. -/
theorem insertSQL_insert (d : DB) (bid full ts stamp : Bytes) :
    d.insert insertSQL [bid, full, ts] stamp =
      .ok { quotations := d.quotations ++
              [{ id := d.nextId, bid := bid, full_response := some full,
                 api_timestamp := some ts, server_timestamp := stamp }]
            seq := d.nextId } := by
  rfl

/-- Success of `fetchExchangeRate` is: the request was built, the upstream
answered with status 200, the body was read in full and decoded. -/
theorem fetchExchangeRate_ok_iff (up : Upstream) (ctx : Context)
    (r : ExchangeRateApiResponse) (B : Bytes) :
    fetchExchangeRate up ctx = .ok (r, B) ↔
      up.newRequest ctx = none ∧ up.roundTrip ctx = .response 200 B none ∧
        up.unmarshal B = .ok r := by
  unfold fetchExchangeRate
  cases h1 : up.newRequest ctx with
  | some e => simp
  | none =>
    cases h2 : up.roundTrip ctx with
    | failed e c => by_cases hc : c = some .deadlineExceeded <;> simp [hc]
    | response status body readErr =>
      dsimp only
      by_cases hs : status = 200
      · subst hs
        cases readErr with
        | some e => simp [StatusOK]
        | none =>
          cases h3 : up.unmarshal body with
          | error e =>
            simp only [StatusOK, ne_eq, not_true_eq_false, if_false]
            constructor
            · intro h; cases h
            · rintro ⟨-, hb, hu⟩
              simp only [DoResult.response.injEq, true_and, and_true] at hb
              subst hb
              rw [h3] at hu
              cases hu
          | ok a =>
            simp only [StatusOK, ne_eq, not_true_eq_false, if_false]
            constructor
            · intro h
              simp only [Except.ok.injEq, Prod.mk.injEq] at h
              obtain ⟨ha, hb⟩ := h
              subst ha hb
              exact ⟨trivial, rfl, h3⟩
            · rintro ⟨-, hb, hu⟩
              simp only [DoResult.response.injEq, true_and, and_true] at hb
              subst hb
              rw [h3] at hu
              cases hu
              rfl
      · have hs' : ¬ (200 = status) := fun h => hs h.symm
        simp [StatusOK, hs, hs']

/-- The context `cotacaoHandler` hands to `fetchExchangeRate`. -/
theorem cotacaoHandler_fetchCtx (up : Upstream) (st : Store) (clk : Clock)
    (reqCtx : Context) (d : DB) :
    (cotacaoHandler up st clk reqCtx d).fetchCtx =
      Context.withTimeout reqCtx clk.entry apiTimeout .apiCancel := by
  unfold cotacaoHandler
  dsimp only
  split <;> rfl

/-- A call of `saveQuotationToDB` either fails and leaves the store as it was,
or succeeds and appends the row made of its arguments. -/
theorem saveQuotationToDB_cases (st : Store) (d : DB) (ctx : Context)
    (q : ExchangeRateData) (B : Bytes) :
    ((saveQuotationToDB st d ctx q B).1 ≠ none ∧ (saveQuotationToDB st d ctx q B).2 = d) ∨
    ((saveQuotationToDB st d ctx q B).1 = none ∧
      ∃ stamp, (saveQuotationToDB st d ctx q B).2 =
        { quotations := d.quotations ++
            [{ id := d.nextId, bid := q.Bid, full_response := some B,
               api_timestamp := some q.Timestamp, server_timestamp := stamp }]
          seq := d.nextId }) := by
  unfold saveQuotationToDB
  cases h1 : st.prepare ctx with
  | some pe =>
    obtain ⟨e, c⟩ := pe
    by_cases hc : c = some .deadlineExceeded <;> simp [hc]
  | none =>
    unfold execContext
    cases h2 : st.exec ctx with
    | failed e c => by_cases hc : c = some .deadlineExceeded <;> simp [hc]
    | completed stamp =>
      right
      dsimp only
      rw [insertSQL_insert]
      exact ⟨rfl, stamp, rfl⟩

/-- The run of `cotacaoHandler` when the fetch succeeds: the reply, and one
application of `saveQuotationToDB` to the store under a context made from
`context.Background()`. -/
theorem cotacaoHandler_of_fetch_ok (up : Upstream) (st : Store) (clk : Clock)
    (reqCtx : Context) (d : DB) (resp : ExchangeRateApiResponse) (B : Bytes)
    (hfetch : fetchExchangeRate up (Context.withTimeout reqCtx clk.entry apiTimeout .apiCancel)
      = .ok (resp, B)) :
    cotacaoHandler up st clk reqCtx d =
      { response := { status := StatusOK, header := [("Content-Type", "application/json")],
                      body := B }
        db := (saveQuotationToDB st d
          (Context.withTimeout .background (clk.entry + clk.fetchElapsed) dbTimeout .dbCancel)
          resp.USDBRL B).2
        fetchCtx := Context.withTimeout reqCtx clk.entry apiTimeout .apiCancel
        saveCalls := [⟨Context.withTimeout .background (clk.entry + clk.fetchElapsed) dbTimeout
          .dbCancel, resp.USDBRL, B⟩]
        saveErr := (saveQuotationToDB st d
          (Context.withTimeout .background (clk.entry + clk.fetchElapsed) dbTimeout .dbCancel)
          resp.USDBRL B).1 } := by
  simp only [cotacaoHandler, hfetch]

/-- The run of `cotacaoHandler` when the fetch fails. -/
theorem cotacaoHandler_of_fetch_error (up : Upstream) (st : Store) (clk : Clock)
    (reqCtx : Context) (d : DB) (err : GoError)
    (hfetch : fetchExchangeRate up (Context.withTimeout reqCtx clk.entry apiTimeout .apiCancel)
      = .error err) :
    cotacaoHandler up st clk reqCtx d =
      { response := httpError (lit "Erro ao buscar cotação externa: " ++ err.msg)
          StatusInternalServerError
        db := d
        fetchCtx := Context.withTimeout reqCtx clk.entry apiTimeout .apiCancel
        saveCalls := []
        saveErr := none } := by
  simp only [cotacaoHandler, hfetch]

/-- A call of `saveQuotationToDB` returns no error exactly when the driver
prepares the statement and runs it to completion under the context given. -/
theorem saveQuotationToDB_ok_iff (st : Store) (d : DB) (ctx : Context)
    (q : ExchangeRateData) (B : Bytes) :
    (saveQuotationToDB st d ctx q B).1 = none ↔
      st.prepare ctx = none ∧ ∃ stamp, st.exec ctx = .completed stamp := by
  unfold saveQuotationToDB
  cases h1 : st.prepare ctx with
  | some pe =>
    obtain ⟨e, c⟩ := pe
    by_cases hc : c = some .deadlineExceeded <;> simp [hc]
  | none =>
    unfold execContext
    cases h2 : st.exec ctx with
    | failed e c => by_cases hc : c = some .deadlineExceeded <;> simp [hc]
    | completed stamp =>
      dsimp only
      rw [insertSQL_insert]
      simp

/-- Two contexts under which `saveQuotationToDB` returns the same error for
every store are the same context. -/
theorem saveQuotationToDB_ctx_unique (c ctx : Context) (d : DB) (q : ExchangeRateData)
    (B : Bytes)
    (h : ∀ st : Store, (saveQuotationToDB st d c q B).1 = (saveQuotationToDB st d ctx q B).1) :
    ctx = c := by
  by_contra hne
  have hR : (saveQuotationToDB
      { prepare := fun x => if x = c then some (⟨[]⟩, none) else none
        exec := fun _ => .completed [] } d ctx q B).1 = none :=
    (saveQuotationToDB_ok_iff _ d ctx q B).mpr ⟨if_neg hne, [], rfl⟩
  have hL := ((saveQuotationToDB_ok_iff _ d c q B).mp ((h _).trans hR)).1
  simp at hL

/-- Two contexts under which `fetchExchangeRate` succeeds for the same
upstreams are the same context. -/
theorem fetchExchangeRate_ctx_unique (c ctx : Context)
    (h : ∀ up : Upstream, (∃ r b, fetchExchangeRate up c = .ok (r, b)) ↔
      ∃ r b, fetchExchangeRate up ctx = .ok (r, b)) :
    ctx = c := by
  by_contra hne
  have hR : ∃ r b, fetchExchangeRate
      { newRequest := fun x => if x = c then some ⟨[]⟩ else none
        roundTrip := fun _ => .response 200 [] none
        unmarshal := fun _ => .ok ⟨⟨[], [], [], [], [], [], [], [], [], [], []⟩⟩ } ctx
        = .ok (r, b) :=
    ⟨_, _, (fetchExchangeRate_ok_iff _ ctx _ _).mpr ⟨if_neg hne, rfl, rfl⟩⟩
  obtain ⟨r, b, hL⟩ := (h _).mpr hR
  have hN := ((fetchExchangeRate_ok_iff _ c r b).mp hL).1
  simp at hN

end GoCambio.Server

namespace GoCambio.Server

open GoCambio.Sample

/-- Claim C1. When `fetchExchangeRate` succeeds with raw body `B`, the reply of
`cotacaoHandler` has status 200 and body `B`, byte for byte, for every store
`st`: whether `saveQuotationToDB` succeeds, times out or fails to write changes
neither the status nor the body. Nothing is asked of the bid, so the statement
covers the payloads with a non-empty one. -/
theorem cotacaoHandler_reply_of_fetch_ok (up : Upstream) (st : Store) (clk : Clock)
    (reqCtx : Context) (d : DB) (resp : ExchangeRateApiResponse) (B : Bytes)
    (hfetch : fetchExchangeRate up (Context.withTimeout reqCtx clk.entry apiTimeout .apiCancel)
      = .ok (resp, B)) :
    (cotacaoHandler up st clk reqCtx d).response.status = 200 ∧
      (cotacaoHandler up st clk reqCtx d).response.body = B := by
  simp [cotacaoHandler, hfetch, StatusOK]

/-- A run of claim C1: the upstream answers `{"USDBRL":{"bid":"5.25"}}`, the
store times out, and the reply is still 200 with that body. -/
theorem cotacaoHandler_reply_of_fetch_ok_witness :
    (∃ resp, resp.USDBRL.Bid = lit "5.25" ∧
      fetchExchangeRate (upstreamAnswering 200 body525)
        (Context.withTimeout inbound clock.entry apiTimeout .apiCancel) = .ok (resp, body525)) ∧
    (cotacaoHandler (upstreamAnswering 200 body525) storeTimingOut clock inbound db1).saveErr
      ≠ none ∧
    (cotacaoHandler (upstreamAnswering 200 body525) storeTimingOut clock inbound db1).response.status
      = 200 ∧
    (cotacaoHandler (upstreamAnswering 200 body525) storeTimingOut clock inbound db1).response.body
      = body525 :=
  ⟨⟨_, rfl, rfl⟩, by decide,
    cotacaoHandler_reply_of_fetch_ok (upstreamAnswering 200 body525) storeTimingOut clock inbound
      db1 _ body525 rfl⟩

/-- Claim C2. When the upstream call exceeds its deadline (`client.Do` fails
and `ctx.Err()` is `context.DeadlineExceeded`), and likewise when
`fetchExchangeRate` fails in any other way, `cotacaoHandler` replies with status
500, never invokes `saveQuotationToDB`, and leaves the store, hence the rows of
`quotations`, exactly as before. -/
theorem cotacaoHandler_of_fetch_failure (up : Upstream) (st : Store) (clk : Clock)
    (reqCtx : Context) (d : DB)
    (hfail :
      (up.newRequest (Context.withTimeout reqCtx clk.entry apiTimeout .apiCancel) = none ∧
        ∃ e, up.roundTrip (Context.withTimeout reqCtx clk.entry apiTimeout .apiCancel)
          = .failed e (some .deadlineExceeded)) ∨
      ∃ err, fetchExchangeRate up (Context.withTimeout reqCtx clk.entry apiTimeout .apiCancel)
        = .error err) :
    (cotacaoHandler up st clk reqCtx d).response.status = 500 ∧
      (cotacaoHandler up st clk reqCtx d).saveCalls = [] ∧
      (cotacaoHandler up st clk reqCtx d).db = d ∧
      (cotacaoHandler up st clk reqCtx d).db.quotations = d.quotations := by
  have herr : ∃ err, fetchExchangeRate up
      (Context.withTimeout reqCtx clk.entry apiTimeout .apiCancel) = .error err := by
    rcases hfail with ⟨h1, e, h2⟩ | h
    · refine ⟨wrapf "timeout ao buscar cotação da API externa: "
        CtxErr.deadlineExceeded.toError, ?_⟩
      simp [fetchExchangeRate, h1, h2]
    · exact h
  obtain ⟨err, herr⟩ := herr
  simp [cotacaoHandler, herr, httpError, StatusInternalServerError]

/-- A run of claim C2: the upstream does not answer within the deadline. -/
theorem cotacaoHandler_of_fetch_failure_witness :
    (cotacaoHandler upstreamTimingOut storeWorking clock inbound db1).response.status = 500 ∧
      (cotacaoHandler upstreamTimingOut storeWorking clock inbound db1).saveCalls = [] ∧
      (cotacaoHandler upstreamTimingOut storeWorking clock inbound db1).db = db1 ∧
      (cotacaoHandler upstreamTimingOut storeWorking clock inbound db1).db.quotations
        = db1.quotations :=
  cotacaoHandler_of_fetch_failure upstreamTimingOut storeWorking clock inbound db1
    (Or.inl ⟨rfl, _, rfl⟩)

/-- Claim C6 as stated fails: the fetch succeeds, `saveQuotationToDB` times out,
and `quotations` has the rows it had, not one more. -/
theorem one_row_per_request_counterexample :
    (∃ resp, fetchExchangeRate (upstreamAnswering 200 bodyStamped)
        (Context.withTimeout inbound clock.entry apiTimeout .apiCancel)
          = .ok (resp, bodyStamped)) ∧
    (cotacaoHandler (upstreamAnswering 200 bodyStamped) storeTimingOut clock inbound
        db1).db.quotations = db1.quotations ∧
    (cotacaoHandler (upstreamAnswering 200 bodyStamped) storeTimingOut clock inbound
        db1).db.quotations.length ≠ db1.quotations.length + 1 :=
  ⟨⟨_, rfl⟩, by decide, by decide⟩

/-- Claim C6, amended. For every request whose fetch succeeds, `cotacaoHandler`
invokes `saveQuotationToDB` exactly once: the store after the request and the
error the handler logs are the store and the error returned by one application
of `saveQuotationToDB` to the store before the request, for every store. That
call succeeds exactly when the driver prepares the statement and runs it to
completion; `quotations` has exactly one more row after the request when the
call succeeded, and exactly the rows it had when the call failed. -/
theorem cotacaoHandler_rows_of_fetch_ok (up : Upstream) (st : Store) (clk : Clock)
    (reqCtx : Context) (d : DB) (resp : ExchangeRateApiResponse) (B : Bytes)
    (hfetch : fetchExchangeRate up (Context.withTimeout reqCtx clk.entry apiTimeout .apiCancel)
      = .ok (resp, B)) :
    (cotacaoHandler up st clk reqCtx d).db =
      (saveQuotationToDB st d
        (Context.withTimeout .background (clk.entry + clk.fetchElapsed) dbTimeout .dbCancel)
        resp.USDBRL B).2 ∧
    (cotacaoHandler up st clk reqCtx d).saveErr =
      (saveQuotationToDB st d
        (Context.withTimeout .background (clk.entry + clk.fetchElapsed) dbTimeout .dbCancel)
        resp.USDBRL B).1 ∧
    (cotacaoHandler up st clk reqCtx d).saveCalls.length = 1 ∧
    ((saveQuotationToDB st d
        (Context.withTimeout .background (clk.entry + clk.fetchElapsed) dbTimeout .dbCancel)
        resp.USDBRL B).1 = none ↔
      st.prepare
        (Context.withTimeout .background (clk.entry + clk.fetchElapsed) dbTimeout .dbCancel)
          = none ∧
      ∃ stamp, st.exec
        (Context.withTimeout .background (clk.entry + clk.fetchElapsed) dbTimeout .dbCancel)
          = .completed stamp) ∧
    ((saveQuotationToDB st d
        (Context.withTimeout .background (clk.entry + clk.fetchElapsed) dbTimeout .dbCancel)
        resp.USDBRL B).1 = none →
      (∃ row, (cotacaoHandler up st clk reqCtx d).db.quotations = d.quotations ++ [row]) ∧
      (cotacaoHandler up st clk reqCtx d).db.quotations.length = d.quotations.length + 1) ∧
    ((saveQuotationToDB st d
        (Context.withTimeout .background (clk.entry + clk.fetchElapsed) dbTimeout .dbCancel)
        resp.USDBRL B).1 ≠ none →
      (cotacaoHandler up st clk reqCtx d).db.quotations = d.quotations) := by
  rw [cotacaoHandler_of_fetch_ok up st clk reqCtx d resp B hfetch]
  refine ⟨rfl, rfl, rfl, saveQuotationToDB_ok_iff _ _ _ _ _, ?_, ?_⟩
  · intro hnone
    rcases saveQuotationToDB_cases st d
      (Context.withTimeout .background (clk.entry + clk.fetchElapsed) dbTimeout .dbCancel)
      resp.USDBRL B with ⟨hne, -⟩ | ⟨-, stamp, hrow⟩
    · exact absurd hnone hne
    · dsimp only
      rw [hrow]
      exact ⟨⟨_, rfl⟩, by simp⟩
  · intro hsome
    rcases saveQuotationToDB_cases st d
      (Context.withTimeout .background (clk.entry + clk.fetchElapsed) dbTimeout .dbCancel)
      resp.USDBRL B with ⟨-, hsame⟩ | ⟨hnone, -⟩
    · dsimp only
      rw [hsame]
    · exact absurd hnone hsome

/-- Runs of amended claim C6 on a table of one row. With a working store the
call of `saveQuotationToDB` returns no error and the table is the earlier row
followed by the new one, two rows; with a store whose write fails the call
returns an error and the table is the earlier row alone. -/
theorem cotacaoHandler_rows_of_fetch_ok_witness :
    ((saveQuotationToDB storeWorking db1
        (Context.withTimeout .background (clock.entry + clock.fetchElapsed) dbTimeout .dbCancel)
        respStamped.USDBRL bodyStamped).1 = none ∧
      (cotacaoHandler (upstreamAnswering 200 bodyStamped) storeWorking clock inbound
        db1).saveErr = none ∧
      (cotacaoHandler (upstreamAnswering 200 bodyStamped) storeWorking clock inbound
        db1).db.quotations = db1.quotations ++
          [{ id := 2, bid := lit "5.25", full_response := some bodyStamped,
             api_timestamp := some (lit "1700000000"),
             server_timestamp := lit "2024-01-01 00:00:00" }] ∧
      (cotacaoHandler (upstreamAnswering 200 bodyStamped) storeWorking clock inbound
        db1).db.quotations.length = 2) ∧
    ((saveQuotationToDB storeFailing db1
        (Context.withTimeout .background (clock.entry + clock.fetchElapsed) dbTimeout .dbCancel)
        respStamped.USDBRL bodyStamped).1 ≠ none ∧
      (cotacaoHandler (upstreamAnswering 200 bodyStamped) storeFailing clock inbound
        db1).saveErr ≠ none ∧
      (cotacaoHandler (upstreamAnswering 200 bodyStamped) storeFailing clock inbound
        db1).db.quotations = db1.quotations ∧
      (cotacaoHandler (upstreamAnswering 200 bodyStamped) storeFailing clock inbound
        db1).db.quotations.length = 1) := by
  have hw := cotacaoHandler_rows_of_fetch_ok (upstreamAnswering 200 bodyStamped) storeWorking
    clock inbound db1 respStamped bodyStamped rfl
  have hf := cotacaoHandler_rows_of_fetch_ok (upstreamAnswering 200 bodyStamped) storeFailing
    clock inbound db1 respStamped bodyStamped rfl
  obtain ⟨-, hwerr, -, hwiff, hwrow, -⟩ := hw
  obtain ⟨-, hferr, -, hfiff, -, hfrow⟩ := hf
  have hwok := hwiff.mpr ⟨rfl, _, rfl⟩
  have hfno : (saveQuotationToDB storeFailing db1
      (Context.withTimeout .background (clock.entry + clock.fetchElapsed) dbTimeout .dbCancel)
      respStamped.USDBRL bodyStamped).1 ≠ none := by
    intro h
    obtain ⟨-, stamp, hstamp⟩ := hfiff.mp h
    cases hstamp
  refine ⟨⟨hwok, hwerr.trans hwok, by decide, ?_⟩, hfno, ?_, hfrow hfno, ?_⟩
  · exact (hwrow hwok).2
  · rw [hferr]
    exact hfno
  · rw [hfrow hfno]
    rfl

end GoCambio.Server

namespace GoCambio.Server

open GoCambio.Sample

/-- Claim C7 as stated fails: an upstream response with status 201 and a
decodable body makes `fetchExchangeRate` return an error, not the parsed bid
and the raw bytes. -/
theorem fetchExchangeRate_status_201_counterexample :
    (∃ resp, (upstreamAnswering 201 body525).unmarshal body525 = .ok resp) ∧
    fetchExchangeRate (upstreamAnswering 201 body525)
        (Context.withTimeout inbound clock.entry apiTimeout .apiCancel) =
      .error ⟨lit "API externa retornou status não OK: 201 - " ++ body525⟩ :=
  ⟨⟨_, rfl⟩, rfl⟩

/-- Claim C7, amended. The bad-status failure of `fetchExchangeRate` is decided
by the status being 200 or not: for every upstream response with a status other
than 200 (201 and 204 included) it returns an error, and for every upstream
response with status 200 whose body is read in full and decodes it succeeds,
returning the parsed response, with its bid, and the raw response bytes. -/
theorem fetchExchangeRate_status (up : Upstream) (ctx : Context) (status : Nat)
    (body : Bytes) (readErr : Option GoError)
    (hreq : up.newRequest ctx = none)
    (hresp : up.roundTrip ctx = .response status body readErr) :
    (status ≠ 200 → ∃ err, fetchExchangeRate up ctx = .error err) ∧
    (status = 200 → readErr = none → ∀ parsed, up.unmarshal body = .ok parsed →
      fetchExchangeRate up ctx = .ok (parsed, body)) := by
  constructor
  · intro hs
    refine ⟨⟨lit "API externa retornou status não OK: " ++ lit (toString status)
      ++ lit " - " ++ body⟩, ?_⟩
    simp [fetchExchangeRate, hreq, hresp, StatusOK, hs]
  · intro hs hr parsed hparsed
    subst hs hr
    exact (fetchExchangeRate_ok_iff up ctx parsed body).mpr ⟨hreq, hresp, hparsed⟩

/-- Runs of amended claim C7: status 200 with the body
`{"USDBRL":{"bid":"5.25"}}` gives the parsed bid `5.25` and the body, status
204 with the same body gives an error. -/
theorem fetchExchangeRate_status_witness :
    (∃ parsed, parsed.USDBRL.Bid = lit "5.25" ∧
      fetchExchangeRate (upstreamAnswering 200 body525) inbound = .ok (parsed, body525)) ∧
    (∃ err, fetchExchangeRate (upstreamAnswering 204 body525) inbound = .error err) :=
  ⟨⟨_, rfl, (fetchExchangeRate_status (upstreamAnswering 200 body525) inbound 200 body525 none
      rfl rfl).2 rfl rfl _ rfl⟩,
    (fetchExchangeRate_status (upstreamAnswering 204 body525) inbound 204 body525 none
      rfl rfl).1 (by decide)⟩

/-- Claim C8. A successful call of `saveQuotationToDB` with parsed data `q` and
raw body `B` leaves `quotations` as the table before followed by exactly one
row, whose bid is `q.Bid`, whose full_response is `B` and whose api_timestamp
is `q.Timestamp`; a failed call leaves the store as it was. In `cotacaoHandler`
the data and body handed to `saveQuotationToDB` are the `USDBRL` object decoded
from, and the raw bytes of, the upstream response whose body is the reply. -/
theorem saveQuotationToDB_appends (up : Upstream) (st : Store) (clk : Clock)
    (reqCtx ctx : Context) (d : DB) (q : ExchangeRateData) (B : Bytes) :
    ((saveQuotationToDB st d ctx q B).1 = none →
      ∃ row, (saveQuotationToDB st d ctx q B).2.quotations = d.quotations ++ [row] ∧
        row.bid = q.Bid ∧ row.full_response = some B ∧
        row.api_timestamp = some q.Timestamp) ∧
    ((saveQuotationToDB st d ctx q B).1 ≠ none → (saveQuotationToDB st d ctx q B).2 = d) ∧
    (∀ resp body,
      fetchExchangeRate up (Context.withTimeout reqCtx clk.entry apiTimeout .apiCancel)
        = .ok (resp, body) →
      up.roundTrip (Context.withTimeout reqCtx clk.entry apiTimeout .apiCancel)
        = .response 200 body none ∧
      up.unmarshal body = .ok resp ∧
      (cotacaoHandler up st clk reqCtx d).response.body = body ∧
      (cotacaoHandler up st clk reqCtx d).saveCalls.map
        (fun c => (c.quotationData, c.fullResponseJson)) = [(resp.USDBRL, body)] ∧
      (cotacaoHandler up st clk reqCtx d).db =
        (saveQuotationToDB st d
          (Context.withTimeout .background (clk.entry + clk.fetchElapsed) dbTimeout .dbCancel)
          resp.USDBRL body).2) := by
  refine ⟨?_, ?_, ?_⟩
  · intro hnone
    rcases saveQuotationToDB_cases st d ctx q B with ⟨hne, -⟩ | ⟨-, stamp, hrow⟩
    · exact absurd hnone hne
    · rw [hrow]
      exact ⟨_, rfl, rfl, rfl, rfl⟩
  · intro hsome
    rcases saveQuotationToDB_cases st d ctx q B with ⟨-, hsame⟩ | ⟨hnone, -⟩
    · exact hsame
    · exact absurd hnone hsome
  · intro resp body hfetch
    have hok := (fetchExchangeRate_ok_iff up _ resp body).mp hfetch
    refine ⟨hok.2.1, hok.2.2, ?_, ?_, ?_⟩ <;> simp [cotacaoHandler, hfetch]

/-- A run of claim C8: one earlier row, a working store, and the row appended
for the body `{"USDBRL":{"bid":"5.25","timestamp":"1700000000"}}`. -/
theorem saveQuotationToDB_appends_witness :
    (cotacaoHandler (upstreamAnswering 200 bodyStamped) storeWorking clock inbound db1).db
      = { quotations := db1.quotations ++
            [{ id := 2, bid := lit "5.25", full_response := some bodyStamped,
               api_timestamp := some (lit "1700000000"),
               server_timestamp := lit "2024-01-01 00:00:00" }]
          seq := 2 } ∧
    (cotacaoHandler (upstreamAnswering 200 bodyStamped) storeWorking clock inbound
      db1).response.body = bodyStamped :=
  have h := (saveQuotationToDB_appends (upstreamAnswering 200 bodyStamped) storeWorking clock
    inbound inbound db1
    ⟨[], [], [], [], [], [], [], lit "5.25", [], lit "1700000000", []⟩ bodyStamped).2.2
      ⟨⟨[], [], [], [], [], [], [], lit "5.25", [], lit "1700000000", []⟩⟩ bodyStamped rfl
  ⟨h.2.2.2.2.trans (by decide), h.2.2.1⟩

/-- Claim C9. For every request whose fetch succeeds, after whatever time
`clk.fetchElapsed`, the store write of `cotacaoHandler` is `saveQuotationToDB`
applied to one context `dbCtx`: for every store, the store and the error after
the request are those that call returns, and `dbCtx` is the only context of
which this is true. It is not the fetch context. Its deadline is the store
stage's start plus the full `dbTimeout` (10ms), and it is done exactly when
`dbCancel` was called or that deadline has passed: it is not done before it,
whether or not the inbound request's context or the fetch context is cancelled
or expired. The fetch is `fetchExchangeRate` applied to
`context.WithTimeout(r.Context(), apiTimeout)` taken at handler entry: for
every upstream the reply is 200 exactly when that call succeeds, and no other
context has this property. That context is done whenever the inbound request's
context is and once entry plus `apiTimeout` (200ms) has passed; its deadline is
never later than that, and is exactly that when the inbound context carries no
deadline, as the contexts of `net/http` do. -/
theorem cotacaoHandler_deadlines (up : Upstream) (st : Store) (clk : Clock)
    (reqCtx : Context) (d : DB) (resp : ExchangeRateApiResponse) (B : Bytes)
    (hfetch : fetchExchangeRate up (Context.withTimeout reqCtx clk.entry apiTimeout .apiCancel)
      = .ok (resp, B)) :
    dbTimeout = 10 * millisecond ∧ apiTimeout = 200 * millisecond ∧
    (∃ dbCtx,
      (∀ st' d', (cotacaoHandler up st' clk reqCtx d').db =
          (saveQuotationToDB st' d' dbCtx resp.USDBRL B).2 ∧
        (cotacaoHandler up st' clk reqCtx d').saveErr =
          (saveQuotationToDB st' d' dbCtx resp.USDBRL B).1) ∧
      (∀ ctx, (∀ st', (cotacaoHandler up st' clk reqCtx d).saveErr =
          (saveQuotationToDB st' d ctx resp.USDBRL B).1) → ctx = dbCtx) ∧
      dbCtx ≠ Context.withTimeout reqCtx clk.entry apiTimeout .apiCancel ∧
      (cotacaoHandler up st clk reqCtx d).saveCalls.map SaveCall.ctx = [dbCtx] ∧
      dbCtx.deadline = some ((clk.entry + clk.fetchElapsed) + dbTimeout) ∧
      (∀ now called, dbCtx.done now called =
        (called .dbCancel || decide ((clk.entry + clk.fetchElapsed) + dbTimeout ≤ now))) ∧
      (∀ now called, called .dbCancel = false →
        now < (clk.entry + clk.fetchElapsed) + dbTimeout →
        dbCtx.done now called = false)) ∧
    (∀ up' st' d', (cotacaoHandler up' st' clk reqCtx d').response.status = 200 ↔
      ∃ r b, fetchExchangeRate up' (Context.withTimeout reqCtx clk.entry apiTimeout .apiCancel)
        = .ok (r, b)) ∧
    (∀ ctx, (∀ up', (cotacaoHandler up' st clk reqCtx d).response.status = 200 ↔
        ∃ r b, fetchExchangeRate up' ctx = .ok (r, b)) →
      ctx = Context.withTimeout reqCtx clk.entry apiTimeout .apiCancel) ∧
    (cotacaoHandler up st clk reqCtx d).fetchCtx =
      Context.withTimeout reqCtx clk.entry apiTimeout .apiCancel ∧
    (∀ now called, reqCtx.done now called = true →
      (Context.withTimeout reqCtx clk.entry apiTimeout .apiCancel).done now called = true) ∧
    (∀ now called, clk.entry + apiTimeout ≤ now →
      (Context.withTimeout reqCtx clk.entry apiTimeout .apiCancel).done now called = true) ∧
    (∃ dl, (Context.withTimeout reqCtx clk.entry apiTimeout .apiCancel).deadline = some dl ∧
      dl ≤ clk.entry + apiTimeout) ∧
    (reqCtx.deadline = none →
      (Context.withTimeout reqCtx clk.entry apiTimeout .apiCancel).deadline
        = some (clk.entry + apiTimeout)) := by
  have hstatus : ∀ (up' : Upstream) (st' : Store) (d' : DB),
      (cotacaoHandler up' st' clk reqCtx d').response.status = 200 ↔
        ∃ r b, fetchExchangeRate up' (Context.withTimeout reqCtx clk.entry apiTimeout .apiCancel)
          = .ok (r, b) := by
    intro up' st' d'
    cases hf : fetchExchangeRate up'
        (Context.withTimeout reqCtx clk.entry apiTimeout .apiCancel) with
    | error err =>
      rw [cotacaoHandler_of_fetch_error up' st' clk reqCtx d' err hf]
      simp [httpError, StatusInternalServerError]
    | ok rb =>
      obtain ⟨r, b⟩ := rb
      rw [cotacaoHandler_of_fetch_ok up' st' clk reqCtx d' r b hf]
      simp [StatusOK]
  refine ⟨rfl, rfl, ⟨Context.withTimeout .background (clk.entry + clk.fetchElapsed) dbTimeout
    .dbCancel, ?_, ?_, ?_, ?_, rfl, ?_, ?_⟩, hstatus, ?_, ?_, ?_, ?_, ?_, ?_⟩
  · intro st' d'
    rw [cotacaoHandler_of_fetch_ok up st' clk reqCtx d' resp B hfetch]
    exact ⟨rfl, rfl⟩
  · intro ctx hall
    refine saveQuotationToDB_ctx_unique _ ctx d resp.USDBRL B (fun st' => ?_)
    have h := hall st'
    rw [cotacaoHandler_of_fetch_ok up st' clk reqCtx d resp B hfetch] at h
    exact h
  · simp [Context.withTimeout]
  · rw [cotacaoHandler_of_fetch_ok up st clk reqCtx d resp B hfetch]
    rfl
  · intro now called
    simp [Context.withTimeout, Context.done]
  · intro now called hc hnow
    simp [Context.withTimeout, Context.done, hc, hnow]
  · intro ctx hall
    exact fetchExchangeRate_ctx_unique _ ctx (fun up' => (hstatus up' st d).symm.trans (hall up'))
  · exact cotacaoHandler_fetchCtx up st clk reqCtx d
  · intro now called hdone
    simp [Context.withTimeout, Context.done, hdone]
  · intro now called hnow
    simp [Context.withTimeout, Context.done, hnow]
  · cases hdl : reqCtx.deadline with
    | none =>
      exact ⟨clk.entry + apiTimeout, by
        simp [Context.withTimeout, Context.deadline, hdl], le_refl _⟩
    | some pd =>
      exact ⟨min pd (clk.entry + apiTimeout), by
        simp [Context.withTimeout, Context.deadline, hdl],
        min_le_right _ _⟩
  · intro hdl
    simp [Context.withTimeout, Context.deadline, hdl]

end GoCambio.Server

namespace GoCambio.Server

open GoCambio.Sample

/-- A run of claim C9: the handler is entered at 1000ms and the fetch takes
150ms. A store that serves only the calls made under the context with deadline
1160ms and cancel function `dbCancel` takes the write, and a store that serves
only the calls made under the fetch context does not; an upstream that answers
only under the fetch context, whose deadline is 1200ms, is answered with 200.
At 1155ms, with the inbound request cancelled, the inbound context and the
fetch context are done and the store context is not. -/
theorem cotacaoHandler_deadlines_witness :
    (∃ dbCtx, dbCtx = Context.withDeadline .background (1160 * millisecond) .dbCancel ∧
      (cotacaoHandler (upstreamAnswering 200 bodyStamped) (storeAccepting dbCtx) clock inbound
        db1).db = (saveQuotationToDB (storeAccepting dbCtx) db1 dbCtx respStamped.USDBRL
          bodyStamped).2 ∧
      (cotacaoHandler (upstreamAnswering 200 bodyStamped) (storeAccepting dbCtx) clock inbound
        db1).db.quotations.length = 2 ∧
      (cotacaoHandler (upstreamAnswering 200 bodyStamped)
        (storeAccepting (Context.withDeadline inbound (1200 * millisecond) .apiCancel))
        clock inbound db1).db = db1 ∧
      (cotacaoHandler (upstreamAnswering 200 bodyStamped) storeWorking clock inbound
        db1).saveCalls.map SaveCall.ctx = [dbCtx] ∧
      dbCtx.deadline = some (1160 * millisecond) ∧
      dbCtx.done (1155 * millisecond) (fun c => decide (c = .outer 1)) = false) ∧
    (cotacaoHandler
      (upstreamAccepting (Context.withDeadline inbound (1200 * millisecond) .apiCancel)
        bodyStamped)
      storeWorking clock inbound db1).response.status = 200 ∧
    (cotacaoHandler
      (upstreamAccepting (Context.withDeadline .background (1160 * millisecond) .dbCancel)
        bodyStamped)
      storeWorking clock inbound db1).response.status = 500 ∧
    inbound.done (1155 * millisecond) (fun c => decide (c = .outer 1)) = true ∧
    (Context.withDeadline inbound (1200 * millisecond) .apiCancel).done (1155 * millisecond)
      (fun c => decide (c = .outer 1)) = true ∧
    (Context.withDeadline inbound (1200 * millisecond) .apiCancel).deadline
      = some (1200 * millisecond) := by
  have h := cotacaoHandler_deadlines (upstreamAnswering 200 bodyStamped) storeWorking clock
    inbound db1 respStamped bodyStamped rfl
  obtain ⟨-, -, ⟨dbCtx, hsave, honly, -, hcall, hdl, -, hfree⟩, hstatus, -, -, hreq, -, -,
    hapi⟩ := h
  have hctx : dbCtx = Context.withDeadline .background (1160 * millisecond) .dbCancel := by
    have h1 : [dbCtx] = [Context.withDeadline .background (1160 * millisecond) .dbCancel] :=
      hcall.symm.trans (by decide)
    exact List.head_eq_of_cons_eq h1
  subst hctx
  refine ⟨⟨_, rfl, (hsave _ db1).1, by decide, by decide, hcall, hdl,
    hfree _ _ (by decide) (by decide)⟩, ?_, by decide, by decide, hreq _ _ (by decide),
    hapi rfl⟩
  exact (hstatus _ storeWorking db1).mpr ⟨respStamped, bodyStamped, rfl⟩

end GoCambio.Server

namespace GoCambio

/-- Claim C10 as stated fails: the sub-budgets of the server taken together do
not exceed the client's request deadline. -/
theorem budgets_counterexample :
    ¬ (Server.apiTimeout + Server.dbTimeout > Client.requestTimeout) := by
  decide

/-- Claim C10, amended. The sub-budgets of the server pipeline taken together,
`apiTimeout + dbTimeout` = 200ms + 10ms = 210ms, are shorter than the client's
request deadline `requestTimeout` = 300ms. -/
theorem budgets :
    Server.apiTimeout = 200 * millisecond ∧ Server.dbTimeout = 10 * millisecond ∧
    Client.requestTimeout = 300 * millisecond ∧
    Server.apiTimeout + Server.dbTimeout = 210 * millisecond ∧
    Server.apiTimeout + Server.dbTimeout < Client.requestTimeout := by
  decide

end GoCambio

/-! ## Properties of the client -/

namespace GoCambio.Client

open GoCambio.Sample

/-- Success of `fetchQuotationFromServer` is: the request was built, the server
answered with status 200, the body was read in full and decoded to a non-empty
bid, which is the value returned. -/
theorem fetchQuotationFromServer_ok_iff (w : World) (url : Bytes) (ctx : Context)
    (bid : Bytes) :
    fetchQuotationFromServer w url ctx = .ok bid ↔
      w.newRequest url ctx = none ∧
      ∃ body resp, w.roundTrip url ctx = .response 200 body none ∧
        w.unmarshal body = .ok resp ∧ resp.USDBRL.Bid = bid ∧ bid ≠ [] := by
  unfold fetchQuotationFromServer
  cases h1 : w.newRequest url ctx with
  | some e => simp
  | none =>
    cases h2 : w.roundTrip url ctx with
    | failed e c => by_cases hc : c = some .deadlineExceeded <;> simp [hc]
    | response status body readErr =>
      dsimp only
      by_cases hs : status = 200
      · subst hs
        cases readErr with
        | some e => simp [StatusOK]
        | none =>
          cases h3 : w.unmarshal body with
          | error e =>
            simp only [StatusOK, ne_eq, not_true_eq_false, if_false]
            constructor
            · intro h; cases h
            · rintro ⟨-, body', resp, hb, hu, -, -⟩
              simp only [DoResult.response.injEq, true_and, and_true] at hb
              subst hb
              rw [h3] at hu
              cases hu
          | ok a =>
            simp only [StatusOK, ne_eq, not_true_eq_false, if_false]
            by_cases hbid : a.USDBRL.Bid = []
            · simp only [hbid, if_true]
              constructor
              · intro h; cases h
              · rintro ⟨-, body', resp, hb, hu, hr, hne⟩
                simp only [DoResult.response.injEq, true_and, and_true] at hb
                subst hb
                rw [h3] at hu
                cases hu
                exact absurd (hbid ▸ hr.symm) hne
            · simp only [hbid, if_false]
              constructor
              · intro h
                simp only [Except.ok.injEq] at h
                subst h
                exact ⟨trivial, body, a, rfl, h3, rfl, hbid⟩
              · rintro ⟨-, body', resp, hb, hu, hr, -⟩
                simp only [DoResult.response.injEq, true_and, and_true] at hb
                subst hb
                rw [h3] at hu
                cases hu
                rw [hr]
      · have hs' : ¬ (200 = status) := fun h => hs h.symm
        simp [StatusOK, hs, hs']

/-- When `fetchQuotationFromServer` fails, `main` ends fatally without calling
`saveQuotationToFile` and the files are as they were. -/
theorem main_of_fetch_error (w : World) (SERVER_URL : Bytes) (start : Nat) (fs : FS)
    (err : GoError)
    (h : fetchQuotationFromServer w (init SERVER_URL)
      (Context.withTimeout .background start requestTimeout .clientCancel) = .error err) :
    (main w SERVER_URL start fs).exitCode = 1 ∧
      (main w SERVER_URL start fs).saveCalls = [] ∧
      (main w SERVER_URL start fs).fs = fs := by
  simp [main, h]

end GoCambio.Client

namespace GoCambio.Client

open GoCambio.Sample

/-- Claim C3. For every server response whose status is not 200, whatever its
body, `fetchQuotationFromServer` returns an error, and `main` then ends fatally
(exit code 1) without calling `saveQuotationToFile`: every file, the output
file included, is left exactly as it was. -/
theorem main_of_bad_status (w : World) (SERVER_URL : Bytes) (start : Nat) (fs : FS)
    (status : Nat) (body : Bytes) (readErr : Option GoError)
    (hresp : w.roundTrip (init SERVER_URL)
      (Context.withTimeout .background start requestTimeout .clientCancel)
        = .response status body readErr)
    (hstatus : status ≠ 200) :
    (∃ err, fetchQuotationFromServer w (init SERVER_URL)
      (Context.withTimeout .background start requestTimeout .clientCancel) = .error err) ∧
    (main w SERVER_URL start fs).exitCode = 1 ∧
    (main w SERVER_URL start fs).saveCalls = [] ∧
    (main w SERVER_URL start fs).fs = fs ∧
    (main w SERVER_URL start fs).fs outputFileName = fs outputFileName := by
  have herr : ∃ err, fetchQuotationFromServer w (init SERVER_URL)
      (Context.withTimeout .background start requestTimeout .clientCancel) = .error err := by
    unfold fetchQuotationFromServer
    cases h1 : w.newRequest (init SERVER_URL)
      (Context.withTimeout .background start requestTimeout .clientCancel) with
    | some e => exact ⟨_, rfl⟩
    | none =>
      refine ⟨⟨lit "servidor retornou status não OK: " ++ lit (toString status)
        ++ lit " - " ++ body⟩, ?_⟩
      simp [hresp, StatusOK, hstatus]
  obtain ⟨err, herr⟩ := herr
  obtain ⟨h1, h2, h3⟩ := main_of_fetch_error w SERVER_URL start fs err herr
  exact ⟨⟨err, herr⟩, h1, h2, h3, by rw [h3]⟩

/-- A run of claim C3: the server answers 500 with a plain-text body and the
older output file stays. -/
theorem main_of_bad_status_witness :
    (500 : Nat) ≠ 200 ∧
    (main (worldAnswering 500 (lit "Erro ao buscar cotação externa\n")) [] 0 fsOld).exitCode = 1 ∧
    (main (worldAnswering 500 (lit "Erro ao buscar cotação externa\n")) [] 0 fsOld).saveCalls
      = [] ∧
    (main (worldAnswering 500 (lit "Erro ao buscar cotação externa\n")) [] 0 fsOld).fs
      outputFileName = some (lit "Dólar: 4.99\nold") :=
  have h := main_of_bad_status (worldAnswering 500 (lit "Erro ao buscar cotação externa\n")) [] 0
    fsOld 500 (lit "Erro ao buscar cotação externa\n") none rfl (by decide)
  ⟨by decide, h.2.1, h.2.2.1, h.2.2.2.2.trans (by decide)⟩

/-- Claim C4. For every status-200 server response whose body decodes to a
`USDBRL.bid` value `b`, and for every prior content of the files, a successful
client run (exit code 0) leaves the output file containing exactly the text
`Dólar: ` followed by `b` and nothing else, whatever it held before, and
leaves every other file as it was; `b` is then non-empty. For `b` = `5.25` the
file is exactly `Dólar: 5.25`. -/
theorem main_writes_bid (w : World) (SERVER_URL : Bytes) (start : Nat) (fs : FS)
    (body : Bytes) (readErr : Option GoError) (resp : ServerResponse) (b : Bytes)
    (hresp : w.roundTrip (init SERVER_URL)
      (Context.withTimeout .background start requestTimeout .clientCancel)
        = .response 200 body readErr)
    (hdec : w.unmarshal body = .ok resp)
    (hbid : resp.USDBRL.Bid = b)
    (hsucc : (main w SERVER_URL start fs).exitCode = 0) :
    b ≠ [] ∧
    (main w SERVER_URL start fs).fs outputFileName = some (lit "Dólar: " ++ b) ∧
    (∀ p, p ≠ outputFileName → (main w SERVER_URL start fs).fs p = fs p) ∧
    (main w SERVER_URL start fs).saveCalls = [b] ∧
    (b = lit "5.25" →
      (main w SERVER_URL start fs).fs outputFileName = some (lit "Dólar: 5.25")) := by
  cases hf : fetchQuotationFromServer w (init SERVER_URL)
      (Context.withTimeout .background start requestTimeout .clientCancel) with
  | error err =>
    have h1 := (main_of_fetch_error w SERVER_URL start fs err hf).1
    rw [hsucc] at h1
    cases h1
  | ok bid =>
    obtain ⟨-, body', resp', hb, hu, hr, hne⟩ :=
      (fetchQuotationFromServer_ok_iff w _ _ bid).mp hf
    rw [hresp] at hb
    simp only [DoResult.response.injEq, true_and] at hb
    obtain ⟨hb, -⟩ := hb
    subst hb
    rw [hdec] at hu
    cases hu
    rw [hbid] at hr
    subst hr
    have hfile : (main w SERVER_URL start fs).fs outputFileName = some (lit "Dólar: " ++ b) ∧
        (∀ p, p ≠ outputFileName → (main w SERVER_URL start fs).fs p = fs p) ∧
        (main w SERVER_URL start fs).saveCalls = [b] := by
      unfold main at hsucc ⊢
      simp only [hf] at hsucc ⊢
      unfold saveQuotationToFile at hsucc ⊢
      cases hw : w.writeFile outputFileName (lit "Dólar: " ++ b) fs with
      | some failure =>
        simp [hw] at hsucc
      | none =>
        simp only [hw]
        refine ⟨by simp [FS.set], ?_, trivial⟩
        intro p hp
        simp [FS.set, hp]
    refine ⟨hne, hfile.1, hfile.2.1, hfile.2.2, ?_⟩
    intro h525
    rw [hfile.1, h525]
    decide

/-- A run of claim C4: the server answers `{"USDBRL":{"bid":"5.25"}}` and the
output file, which held an older quotation and more, holds exactly
`Dólar: 5.25`. -/
theorem main_writes_bid_witness :
    fsOld outputFileName = some (lit "Dólar: 4.99\nold") ∧
    (main (worldAnswering 200 body525) [] 0 fsOld).exitCode = 0 ∧
    (main (worldAnswering 200 body525) [] 0 fsOld).fs outputFileName
      = some (lit "Dólar: 5.25") :=
  ⟨by decide, by decide,
    (main_writes_bid (worldAnswering 200 body525) [] 0 fsOld body525 none ⟨⟨lit "5.25"⟩⟩
      (lit "5.25") rfl rfl rfl (by decide)).2.2.2.2 rfl⟩

/-- Claim C5. For every status-200 server response whose body decodes with
`USDBRL.bid` equal to the empty string, which is what an absent `bid` or an
absent `USDBRL` object decodes to, `fetchQuotationFromServer` returns the
missing-bid error rather than a bid, and `main` ends fatally without calling
`saveQuotationToFile`, every file left as it was. And `fetchQuotationFromServer`
never returns an empty bid together with a nil error. -/
theorem fetchQuotationFromServer_missing_bid (w : World) (url : Bytes) (ctx : Context)
    (SERVER_URL : Bytes) (start : Nat) (fs : FS) :
    (∀ body resp, w.newRequest url ctx = none →
      w.roundTrip url ctx = .response 200 body none →
      w.unmarshal body = .ok resp → resp.USDBRL.Bid = [] →
      fetchQuotationFromServer w url ctx =
        .error ⟨lit "campo 'bid' não encontrado ou vazio na resposta"⟩) ∧
    (∀ body resp,
      w.newRequest (init SERVER_URL)
        (Context.withTimeout .background start requestTimeout .clientCancel) = none →
      w.roundTrip (init SERVER_URL)
        (Context.withTimeout .background start requestTimeout .clientCancel)
          = .response 200 body none →
      w.unmarshal body = .ok resp → resp.USDBRL.Bid = [] →
      (main w SERVER_URL start fs).exitCode = 1 ∧
      (main w SERVER_URL start fs).saveCalls = [] ∧
      (main w SERVER_URL start fs).fs = fs) ∧
    fetchQuotationFromServer w url ctx ≠ .ok [] := by
  have hmiss : ∀ (url : Bytes) (ctx : Context) (body : Bytes) (resp : ServerResponse),
      w.newRequest url ctx = none →
      w.roundTrip url ctx = .response 200 body none →
      w.unmarshal body = .ok resp → resp.USDBRL.Bid = [] →
      fetchQuotationFromServer w url ctx =
        .error ⟨lit "campo 'bid' não encontrado ou vazio na resposta"⟩ := by
    intro url ctx body resp h1 h2 h3 h4
    simp [fetchQuotationFromServer, h1, h2, h3, h4, StatusOK]
  refine ⟨hmiss url ctx, ?_, ?_⟩
  · intro body resp h1 h2 h3 h4
    exact main_of_fetch_error w SERVER_URL start fs _ (hmiss _ _ body resp h1 h2 h3 h4)
  · intro hok
    obtain ⟨-, body, resp, -, -, -, hne⟩ := (fetchQuotationFromServer_ok_iff w url ctx []).mp hok
    exact hne rfl

/-- A run of claim C5: the server answers 200 with the body `{}`, which has no
`USDBRL` object. -/
theorem fetchQuotationFromServer_missing_bid_witness :
    (worldAnswering 200 bodyEmpty).unmarshal bodyEmpty = .ok ⟨⟨[]⟩⟩ ∧
    fetchQuotationFromServer (worldAnswering 200 bodyEmpty) (init [])
      (Context.withTimeout .background 0 requestTimeout .clientCancel) =
        .error ⟨lit "campo 'bid' não encontrado ou vazio na resposta"⟩ ∧
    (main (worldAnswering 200 bodyEmpty) [] 0 fsOld).exitCode = 1 ∧
    (main (worldAnswering 200 bodyEmpty) [] 0 fsOld).saveCalls = [] ∧
    (main (worldAnswering 200 bodyEmpty) [] 0 fsOld).fs = fsOld :=
  have h := fetchQuotationFromServer_missing_bid (worldAnswering 200 bodyEmpty) (init [])
    (Context.withTimeout .background 0 requestTimeout .clientCancel) [] 0 fsOld
  ⟨rfl, h.1 bodyEmpty ⟨⟨[]⟩⟩ rfl rfl rfl rfl, h.2.1 bodyEmpty ⟨⟨[]⟩⟩ rfl rfl rfl rfl⟩

end GoCambio.Client
